import Mathlib

/-!
# SaveAny-Bot transfer pipeline: a shallow embedding

Shallow embedding of the transfer-pipeline core of SaveAny-Bot
(`src/core/utils.go`, package `core`) and of the configuration loader
(`src/unnamed/part_000`, package `config`), with theorems settling the
frozen claims about them.

Conventions of the embedding:
* Go errors are the inductive `GoError`; `fmt.Errorf("...: %w", err)`
  becomes `GoError.wrapped msg err`.
* Fallible calls into collaborators (the storage backend's `Save`, the
  Telegram API, `os.WriteFile`, `os.Remove`, `mimetype.DetectFile`) are
  inputs of the embedded functions: the embedding is parametric in the
  outcome each external call produces.
* Go `int64` byte counts and file sizes are `Nat` (they are nonnegative in
  every reachable state); Go `int` configuration values that the program
  never bounds are `Int`, and Go integer division (truncation toward zero)
  on them is `Int.div`.
* Logging is dropped: a log statement has no observable effect in the model
  beyond the value it does not change.
-/

namespace SaveAnyBot

/-- A Go `error` value: either a leaf error message or an error built with
`fmt.Errorf("msg: %w", cause)`, which wraps a cause. -/
inductive GoError where
  | base (msg : String)
  | wrapped (msg : String) (cause : GoError)
deriving DecidableEq

/-! ## saveFileWithRetry — src/core/utils.go lines 22-34

```go
func saveFileWithRetry(task *types.Task, taskStorage storage.Storage, localFilePath string) error {
    for i := 0; i <= config.Cfg.Retry; i++ {
        if err := taskStorage.Save(task.Ctx, localFilePath, task.StoragePath); err != nil {
            if i == config.Cfg.Retry {
                return fmt.Errorf("failed to save file: %w", err)
            }
            logger.L.Errorf("Failed to save file: %s, retrying...", err)
            continue
        }
        return nil
    }
    return nil
}
```

The storage backend is the parameter `save : Nat → Option GoError`:
`save i` is what the `i`-th call of `taskStorage.Save` returns (`none` for
success).  The loop is embedded by recursion on `remaining = retry - i`,
so the `remaining = 0` case is the `i == config.Cfg.Retry` iteration.
The embedding also counts the calls of `Save`, which the claims are about. -/

/-- One iteration of the retry loop at index `i` with `remaining` further
iterations allowed.  Returns the function result paired with the number of
`Save` calls performed from this iteration on. -/
def saveFileWithRetryAux (save : Nat → Option GoError) (i : Nat) :
    Nat → Except GoError Unit × Nat
  | 0 =>
    match save i with
    | none => (.ok (), 1)
    | some e => (.error (.wrapped "failed to save file" e), 1)
  | r + 1 =>
    match save i with
    | none => (.ok (), 1)
    | some _ =>
      let rest := saveFileWithRetryAux save (i + 1) r
      (rest.1, rest.2 + 1)

/-- `saveFileWithRetry` with retry limit `retry` (the value of
`config.Cfg.Retry`): the error it returns. -/
def saveFileWithRetry (retry : Nat) (save : Nat → Option GoError) :
    Except GoError Unit :=
  (saveFileWithRetryAux save 0 retry).1

/-- How many times `saveFileWithRetry` with retry limit `retry` calls the
storage backend's `Save`. -/
def saveFileWithRetryCalls (retry : Nat) (save : Nat → Option GoError) : Nat :=
  (saveFileWithRetryAux save 0 retry).2

/-- A storage backend stub that fails on the first `k` calls (failure `i`
carries the error `errs i`) and succeeds from call `k` on. -/
def failFirst (k : Nat) (errs : Nat → GoError) : Nat → Option GoError :=
  fun i => if i < k then some (errs i) else none

theorem saveFileWithRetryAux_failFirst (k : Nat) (save : Nat → Option GoError)
    (errs : Nat → GoError)
    (hfail : ∀ i, i < k → save i = some (errs i))
    (hsucc : ∀ i, k ≤ i → save i = none) :
    ∀ r i, saveFileWithRetryAux save i r =
      if k ≤ i + r then (.ok (), k - i + 1)
      else (.error (.wrapped "failed to save file" (errs (i + r))), r + 1) := by
  intro r
  induction r with
  | zero =>
    intro i
    by_cases hk : k ≤ i
    · have : k - i = 0 := by omega
      simp [saveFileWithRetryAux, hsucc i hk, this, hk]
    · rw [show i + 0 = i by omega]
      have hi : i < k := by omega
      simp [saveFileWithRetryAux, hfail i hi, if_neg hk]
  | succ r ih =>
    intro i
    by_cases hk : k ≤ i
    · have : k - i = 0 := by omega
      simp [saveFileWithRetryAux, hsucc i hk, if_pos (show k ≤ i + (r + 1) by omega), this]
    · have hi : i < k := by omega
      simp only [saveFileWithRetryAux, hfail i hi]
      rw [ih (i + 1)]
      by_cases hk2 : k ≤ i + (r + 1)
      · rw [if_pos (show k ≤ i + 1 + r by omega), if_pos hk2]
        have : k - (i + 1) + 1 + 1 = k - i + 1 := by omega
        simp [this]
      · rw [if_neg (show ¬k ≤ i + 1 + r by omega), if_neg hk2]
        have : i + 1 + r = i + (r + 1) := by omega
        simp [this]

/-- Whenever the retry loop returns an error, it has exhausted every
iteration: the backend was called `remaining + 1` more times. -/
theorem saveFileWithRetryAux_error_calls (save : Nat → Option GoError) :
    ∀ r i e, (saveFileWithRetryAux save i r).1 = .error e →
      (saveFileWithRetryAux save i r).2 = r + 1 := by
  intro r
  induction r with
  | zero =>
    intro i e _
    cases h : save i <;> simp [saveFileWithRetryAux, h]
  | succ r ih =>
    intro i e herr
    cases h : save i with
    | none => simp [saveFileWithRetryAux, h] at herr
    | some e2 =>
      simp only [saveFileWithRetryAux, h] at herr ⊢
      rw [ih (i + 1) e herr]

/-- C1.  For a storage backend that fails exactly `k` times and then
succeeds, `saveFileWithRetry` with retry limit `retry` calls `Save` exactly
`k + 1` times and returns `nil` when `k ≤ retry`; when `retry < k` it calls
`Save` exactly `retry + 1` times and returns a wrapped error whose cause is
the failure of the last attempt (attempt `retry`); earlier failures are
never part of the returned value. -/
theorem saveFileWithRetry_failFirst (k retry : Nat) (save : Nat → Option GoError)
    (errs : Nat → GoError)
    (hfail : ∀ i, i < k → save i = some (errs i))
    (hsucc : ∀ i, k ≤ i → save i = none) :
    (k ≤ retry →
      saveFileWithRetry retry save = .ok () ∧
      saveFileWithRetryCalls retry save = k + 1) ∧
    (retry < k →
      saveFileWithRetry retry save =
        .error (.wrapped "failed to save file" (errs retry)) ∧
      saveFileWithRetryCalls retry save = retry + 1) := by
  have h := saveFileWithRetryAux_failFirst k save errs hfail hsucc retry 0
  constructor
  · intro hk
    rw [if_pos (by omega)] at h
    constructor
    · simp [saveFileWithRetry, h]
    · simp [saveFileWithRetryCalls, h]
  · intro hk
    rw [if_neg (by omega)] at h
    constructor
    · simp [saveFileWithRetry, h]
    · simp [saveFileWithRetryCalls, h]

/-- Witness for C1: a backend failing exactly twice, retry limit 3: success
after exactly 3 calls; retry limit 1: the wrapped second failure after
exactly 2 calls. -/
theorem saveFileWithRetry_failFirst_witness :
    (saveFileWithRetry 3 (failFirst 2 (fun _ => .base "boom")) = .ok () ∧
      saveFileWithRetryCalls 3 (failFirst 2 (fun _ => .base "boom")) = 3) ∧
    (saveFileWithRetry 1 (failFirst 2 (fun _ => .base "boom")) =
        .error (.wrapped "failed to save file" (.base "boom")) ∧
      saveFileWithRetryCalls 1 (failFirst 2 (fun _ => .base "boom")) = 2) := by
  have hfail : ∀ i, i < 2 → failFirst 2 (fun _ => GoError.base "boom") i =
      some ((fun _ => GoError.base "boom") i) := by
    intro i hi
    simp [failFirst, hi]
  have hsucc : ∀ i, 2 ≤ i → failFirst 2 (fun _ => GoError.base "boom") i = none := by
    intro i hi
    simp [failFirst]
    omega
  refine ⟨?_, ?_⟩
  · exact (saveFileWithRetry_failFirst 2 3 _ _ hfail hsucc).1 (by omega)
  · exact (saveFileWithRetry_failFirst 2 1 _ _ hfail hsucc).2 (by omega)

/-! ## TaskLocalFile — src/core/utils.go lines 178-226

```go
type TaskLocalFile struct {
    file             *os.File
    size             int64
    done             int64
    progressCallback func(bytesRead, contentLength int64)
    callbackTimes    int64
    nextCallbackAt   int64
    callbackInterval int64
}

func (t *TaskLocalFile) WriteAt(p []byte, off int64) (int, error) {
    n, err := t.file.WriteAt(p, off)
    if err != nil {
        return n, err
    }
    t.done += int64(n)
    if t.progressCallback != nil && t.done >= t.nextCallbackAt {
        t.progressCallback(t.done, t.size)
        t.nextCallbackAt += t.callbackInterval
    }
    return n, nil
}

func NewTaskLocalFile(filePath string, fileSize int64, progressCallback func(bytesRead, contentLength int64)) (*TaskLocalFile, error) {
    file, err := os.Create(filePath)
    if err != nil { return nil, fmt.Errorf("failed to open file: %w", err) }
    var callbackInterval int64
    callbackInterval = fileSize / 100
    if callbackInterval == 0 { callbackInterval = 1 }
    return &TaskLocalFile{ file: file, size: fileSize, progressCallback: progressCallback,
        callbackTimes: 100, nextCallbackAt: callbackInterval, callbackInterval: callbackInterval }, nil
}
```

The wrapped `*os.File` is external, so the result `(n, err)` of the
underlying positional write is an input of the embedded `writeAt`; the
progress callback is modelled by whether one is attached (`hasCallback`,
for `progressCallback != nil`) plus the argument pair recorded when it
fires. -/

/-- The progress-tracking state of a `TaskLocalFile` (the `*os.File` handle
itself lives outside the model). -/
structure TaskLocalFile where
  size : Nat
  done : Nat
  hasCallback : Bool
  callbackTimes : Nat
  nextCallbackAt : Nat
  callbackInterval : Nat
deriving DecidableEq

/-- `TaskLocalFile.WriteAt`, given the result `(n, err)` of the underlying
`t.file.WriteAt`.  Returns the updated state, the `(bytesRead,
contentLength)` pair the progress callback was invoked with (if it fired),
and the method's own return value `(n, err)`. -/
def TaskLocalFile.writeAt (t : TaskLocalFile) (n : Nat) (err : Option GoError) :
    TaskLocalFile × Option (Nat × Nat) × Nat × Option GoError :=
  match err with
  | some e => (t, none, n, some e)
  | none =>
    let done := t.done + n
    if t.hasCallback = true ∧ t.nextCallbackAt ≤ done then
      ({ t with done := done, nextCallbackAt := t.nextCallbackAt + t.callbackInterval },
        some (done, t.size), n, none)
    else
      ({ t with done := done }, none, n, none)

/-- `NewTaskLocalFile` (the `os.Create` step succeeded; the path and the
handle live outside the model). -/
def NewTaskLocalFile (fileSize : Nat) (hasCallback : Bool) : TaskLocalFile :=
  let callbackInterval0 := fileSize / 100
  let callbackInterval := if callbackInterval0 = 0 then 1 else callbackInterval0
  { size := fileSize, done := 0, hasCallback := hasCallback,
    callbackTimes := 100, nextCallbackAt := callbackInterval,
    callbackInterval := callbackInterval }

/-- Run a sequence of `WriteAt` calls: each list entry is the `(n, err)`
result of the underlying positional write.  Returns the final state and how
many times the progress callback fired. -/
def runWrites (t : TaskLocalFile) : List (Nat × Option GoError) → TaskLocalFile × Nat
  | [] => (t, 0)
  | (n, e) :: ws =>
    let step := t.writeAt n e
    let rest := runWrites step.1 ws
    (rest.1, (if step.2.1.isSome then 1 else 0) + rest.2)

/-- The interval the program computes at open time equals the spec's
`max(declaredSize / 100, 1)`. -/
theorem newTaskLocalFile_interval (fileSize : Nat) (hasCallback : Bool) :
    (NewTaskLocalFile fileSize hasCallback).callbackInterval = max (fileSize / 100) 1 := by
  simp only [NewTaskLocalFile]
  by_cases h : fileSize / 100 = 0 <;> (simp [h]; try omega)

/-- Invariant of successful writes each of size at most the interval:
starting from cumulative count `d` with the threshold at the next multiple
of the interval, a sequence of such writes ends at `d + sum`, keeps the
threshold at the next multiple, and fires the callback once per interval
boundary crossed. -/
theorem runWrites_small_writes (ci sz : Nat) (hci : 0 < ci) (ws : List Nat)
    (hsmall : ∀ n ∈ ws, n ≤ ci) :
    ∀ d, runWrites ⟨sz, d, true, 100, (d / ci + 1) * ci, ci⟩
        (ws.map (fun n => (n, none))) =
      (⟨sz, d + ws.sum, true, 100, ((d + ws.sum) / ci + 1) * ci, ci⟩,
        (d + ws.sum) / ci - d / ci) := by
  induction ws with
  | nil =>
    intro d
    simp [runWrites]
  | cons n ws ih =>
    intro d
    have hn : n ≤ ci := hsmall n (by simp)
    have hrest : ∀ m ∈ ws, m ≤ ci := fun m hm => hsmall m (by simp [hm])
    have hdlt : d < (d / ci + 1) * ci := by
      simpa [Nat.succ_eq_add_one] using
        (Nat.div_lt_iff_lt_mul hci).mp (Nat.lt_succ_self (d / ci))
    have hdge : d / ci * ci ≤ d := Nat.div_mul_le_self d ci
    have hassoc : d + (n + ws.sum) = d + n + ws.sum := by omega
    by_cases hfire : (d / ci + 1) * ci ≤ d + n
    · have hq : (d + n) / ci = d / ci + 1 := by
        refine Nat.div_eq_of_lt_le hfire ?_
        calc d + n < (d / ci + 1) * ci + ci := by omega
        _ = (d / ci + 1 + 1) * ci := by ring
      have hstep : TaskLocalFile.writeAt ⟨sz, d, true, 100, (d / ci + 1) * ci, ci⟩ n none =
          (⟨sz, d + n, true, 100, (d / ci + 1) * ci + ci, ci⟩, some (d + n, sz), n, none) := by
        simp [TaskLocalFile.writeAt, hfire]
      have hnext : (d / ci + 1) * ci + ci = ((d + n) / ci + 1) * ci := by
        rw [hq]; ring
      have hmono : (d + n) / ci ≤ (d + n + ws.sum) / ci :=
        Nat.div_le_div_right (by omega)
      simp only [List.map_cons, runWrites, hstep]
      simp only [hnext]
      rw [ih hrest (d + n)]
      simp only [Option.isSome_some, List.sum_cons, hassoc, Prod.mk.injEq, if_true]
      refine ⟨by simp, ?_⟩
      omega
    · have hq : (d + n) / ci = d / ci := by
        refine Nat.div_eq_of_lt_le (by omega) ?_
        omega
      have hstep : TaskLocalFile.writeAt ⟨sz, d, true, 100, (d / ci + 1) * ci, ci⟩ n none =
          (⟨sz, d + n, true, 100, (d / ci + 1) * ci, ci⟩, none, n, none) := by
        simp [TaskLocalFile.writeAt, hfire]
      have hnext : ((d / ci + 1) * ci : Nat) = ((d + n) / ci + 1) * ci := by rw [hq]
      have hmono : (d + n) / ci ≤ (d + n + ws.sum) / ci :=
        Nat.div_le_div_right (by omega)
      simp only [List.map_cons, runWrites, hstep]
      simp only [hnext]
      rw [ih hrest (d + n)]
      simp only [Option.isSome_none, List.sum_cons, hassoc, Prod.mk.injEq,
        Bool.false_eq_true, if_false]
      refine ⟨by simp, ?_⟩
      omega

/-- Counterexample to C2 as stated: declared size 200 (interval
`max(200/100, 1) = 2`), one successful write of 4 bytes (`B = 4 ≤ 200`).
The cumulative counter does reach `B`, but the callback fires once, not
`floor(B / interval) = 2` times: `WriteAt` fires it at most once per call,
with no catch-up loop. -/
theorem taskLocalFile_single_write_counterexample :
    (runWrites (NewTaskLocalFile 200 true) [(4, none)]).1.done = 4 ∧
    (runWrites (NewTaskLocalFile 200 true) [(4, none)]).2 = 1 ∧
    (runWrites (NewTaskLocalFile 200 true) [(4, none)]).2 ≠ 4 / max (200 / 100) 1 := by
  decide

/-- C2 (amended).  For a `TaskLocalFile` created with declared size `S` and
a non-nil callback, after any sequence of successful `WriteAt` calls
*each writing at most `interval` bytes* whose byte counts total `B ≤ S`,
the cumulative counter equals `B` and the callback has fired exactly
`floor(B / interval)` times, where `interval = max(S/100, 1)`.  (A single
write larger than the interval fires the callback at most once, so the
unrestricted statement fails; see the counterexample.) -/
theorem taskLocalFile_progress_of_small_writes (S : Nat) (ws : List Nat)
    (hB : ws.sum ≤ S)
    (hsmall : ∀ n ∈ ws, n ≤ (NewTaskLocalFile S true).callbackInterval) :
    (runWrites (NewTaskLocalFile S true) (ws.map (fun n => (n, none)))).1.done = ws.sum ∧
    (runWrites (NewTaskLocalFile S true) (ws.map (fun n => (n, none)))).2 =
      ws.sum / max (S / 100) 1 := by
  have hci : (NewTaskLocalFile S true).callbackInterval = max (S / 100) 1 :=
    newTaskLocalFile_interval S true
  have hcipos : 0 < max (S / 100) 1 := by omega
  have hstart : NewTaskLocalFile S true =
      ⟨S, 0, true, 100, (0 / max (S / 100) 1 + 1) * max (S / 100) 1, max (S / 100) 1⟩ := by
    have h0 : (0 / max (S / 100) 1 + 1) * max (S / 100) 1 = max (S / 100) 1 := by
      simp
    rw [h0]
    simp only [NewTaskLocalFile]
    by_cases h : S / 100 = 0 <;> (simp [h]; try omega)
  rw [hci] at hsmall
  rw [hstart, runWrites_small_writes (max (S / 100) 1) S hcipos ws hsmall 0]
  simp

/-- Witness for C2 (amended): size 200 (interval 2), writes of 2, 2 and 1
bytes: counter 5, callback fired `5 / 2 = 2` times. -/
theorem taskLocalFile_progress_of_small_writes_witness :
    (runWrites (NewTaskLocalFile 200 true)
        ([2, 2, 1].map (fun n => (n, none)))).1.done = [2, 2, 1].sum ∧
    (runWrites (NewTaskLocalFile 200 true)
        ([2, 2, 1].map (fun n => (n, none)))).2 = [2, 2, 1].sum / max (200 / 100) 1 :=
  taskLocalFile_progress_of_small_writes 200 [2, 2, 1] (by decide) (by decide)

/-- Helper: a `TaskLocalFile` opened with a nil callback never fires it,
whatever the sequence of write results. -/
theorem runWrites_no_callback (t : TaskLocalFile) (h : t.hasCallback = false) :
    ∀ ws, (runWrites t ws).2 = 0 := by
  intro ws
  induction ws generalizing t with
  | nil => simp [runWrites]
  | cons w ws ih =>
    obtain ⟨n, e⟩ := w
    cases e with
    | some e2 =>
      simp only [runWrites, TaskLocalFile.writeAt]
      rw [ih t h]
      simp
    | none =>
      have hstep : t.writeAt n none = ({ t with done := t.done + n }, none, n, none) := by
        simp [TaskLocalFile.writeAt, h]
      simp only [runWrites, hstep]
      rw [ih { t with done := t.done + n } (by simp [h])]
      simp

/-- C10.  When the underlying positional write fails, `WriteAt` returns the
pair `(n, err)` it got, leaves the whole progress state (counter, threshold,
everything) unchanged and fires no callback; and a `TaskLocalFile` opened
with a nil progress callback never invokes a callback on any write
sequence. -/
theorem taskLocalFile_writeAt_error_frame (t : TaskLocalFile) (n : Nat)
    (e : GoError) (u : TaskLocalFile) (ws : List (Nat × Option GoError)) :
    t.writeAt n (some e) = (t, none, n, some e) ∧
    (runWrites { u with hasCallback := false } ws).2 = 0 := by
  constructor
  · rfl
  · exact runWrites_no_callback _ (by simp) ws

/-! ## getTaskThreads — src/core/utils.go lines 168-176

```go
func getTaskThreads(fileSize int64) int {
    threads := 1
    if fileSize > 1024*1024*100 {
        threads = config.Cfg.Threads
    } else if fileSize > 1024*1024*50 {
        threads = config.Cfg.Threads / 2
    }
    return threads
}
```

The configured thread cap `config.Cfg.Threads` is a Go `int` read from
configuration (its field declaration is not among the staged files, and
nothing validates it); it is the parameter `cfgThreads : Int` here, and Go's
integer division, which truncates toward zero, is `Int.tdiv`. -/

def getTaskThreads (cfgThreads : Int) (fileSize : Nat) : Int :=
  if 1024 * 1024 * 100 < fileSize then cfgThreads
  else if 1024 * 1024 * 50 < fileSize then cfgThreads.tdiv 2
  else 1

/-- Counterexample to C3 as stated: with configured thread cap 1, a file of
50 MiB gets 1 thread but a file of 50 MiB + 1 byte gets `1 / 2 = 0` threads:
the integer-division result is *not* clamped to 1, so the result is neither
monotone in the size nor always at least 1. -/
theorem getTaskThreads_counterexample :
    getTaskThreads 1 (1024 * 1024 * 50) = 1 ∧
    getTaskThreads 1 (1024 * 1024 * 50 + 1) = 0 ∧
    ¬(1024 * 1024 * 50 ≤ 1024 * 1024 * 50 + 1 →
        getTaskThreads 1 (1024 * 1024 * 50) ≤ getTaskThreads 1 (1024 * 1024 * 50 + 1)) := by
  refine ⟨by decide, by decide, ?_⟩
  intro h
  have := h (by omega)
  revert this
  decide

/-- C3 (amended).  For every configured thread cap of at least 2,
`getTaskThreads` is monotonically non-decreasing in the file size and
always returns at least 1 thread.  (The code does not clamp
`configuredMax / 2`: with a configured cap of 1 the 50-100 MiB band gets
`0` threads, so the bound `≥ 2` is needed; see the counterexample.) -/
theorem getTaskThreads_mono_of_two_le (cfg : Int) (hcfg : 2 ≤ cfg)
    (s1 s2 : Nat) (h12 : s1 ≤ s2) :
    getTaskThreads cfg s1 ≤ getTaskThreads cfg s2 ∧ 1 ≤ getTaskThreads cfg s1 := by
  have hdiv : cfg.tdiv 2 = cfg / 2 := Int.tdiv_eq_ediv (by omega) (by omega)
  unfold getTaskThreads
  split_ifs <;> omega

/-- Witness for C3 (amended): cap 5, sizes 60 MiB and 200 MiB. -/
theorem getTaskThreads_mono_of_two_le_witness :
    (getTaskThreads 5 (1024 * 1024 * 60) ≤ getTaskThreads 5 (1024 * 1024 * 200) ∧
      1 ≤ getTaskThreads 5 (1024 * 1024 * 60)) :=
  getTaskThreads_mono_of_two_le 5 (by omega) (1024 * 1024 * 60) (1024 * 1024 * 200)
    (by omega)

/-! ## getProgressUpdateCount — src/core/utils.go lines 86-96

```go
func getProgressUpdateCount(fileSize int64) int {
    updateCount := 5
    if fileSize > 1024*1024*1000 {
        updateCount = 50
    } else if fileSize > 1024*1024*500 {
        updateCount = 20
    } else if fileSize > 1024*1024*200 {
        updateCount = 10
    }
    return updateCount
}
```
-/

def getProgressUpdateCount (fileSize : Nat) : Nat :=
  if 1024 * 1024 * 1000 < fileSize then 50
  else if 1024 * 1024 * 500 < fileSize then 20
  else if 1024 * 1024 * 200 < fileSize then 10
  else 5

/-- C6.  `getProgressUpdateCount` returns 50 above 1000 MiB, 20 on the
(500, 1000] MiB band, 10 on the (200, 500] MiB band and 5 otherwise; it
never returns any other value, and its result always divides 100 exactly. -/
theorem getProgressUpdateCount_bands (s : Nat) :
    (1024 * 1024 * 1000 < s → getProgressUpdateCount s = 50) ∧
    (1024 * 1024 * 500 < s → s ≤ 1024 * 1024 * 1000 → getProgressUpdateCount s = 20) ∧
    (1024 * 1024 * 200 < s → s ≤ 1024 * 1024 * 500 → getProgressUpdateCount s = 10) ∧
    (s ≤ 1024 * 1024 * 200 → getProgressUpdateCount s = 5) ∧
    (getProgressUpdateCount s = 5 ∨ getProgressUpdateCount s = 10 ∨
      getProgressUpdateCount s = 20 ∨ getProgressUpdateCount s = 50) ∧
    getProgressUpdateCount s ∣ 100 := by
  unfold getProgressUpdateCount
  split_ifs with h1 h2 h3 <;>
    refine ⟨by omega, by omega, by omega, by omega, by omega, by decide⟩

/-! ## buildProgressCallback — src/core/utils.go lines 132-148

```go
func buildProgressCallback(ctx *ext.Context, task *types.Task, updateCount int) func(bytesRead, contentLength int64) {
    return func(bytesRead, contentLength int64) {
        progress := float64(bytesRead) / float64(contentLength) * 100
        logger.L.Tracef("Downloading %s: %.2f%%", task.String(), progress)
        progressInt := int(progress)
        if task.File.FileSize < 1024*1024*50 || progressInt == 0 || progressInt%int(100/updateCount) != 0 {
            return
        }
        text, entities := buildProgressMessageEntity(task, bytesRead, task.StartTime, progress)
        ctx.EditMessage(...)
    }
}
```

The embedding models the truncation
`int(float64(bytesRead)/float64(contentLength)*100)` by exact integer
arithmetic `bytesRead * 100 / contentLength` (for nonnegative `int64`
inputs with `contentLength > 0` both are the floor of the exact ratio,
up to the rounding of one IEEE 754 multiplication and division, which the
spec's own description "integer-truncated progress" also idealises away).
`buildProgressCallbackEmits` is `true` exactly when the callback reaches
`ctx.EditMessage`, i.e. emits a progress update. -/

def buildProgressCallbackEmits (taskFileSize updateCount bytesRead contentLength : Nat) :
    Bool :=
  let progressInt := bytesRead * 100 / contentLength
  if taskFileSize < 1024 * 1024 * 50 ∨ progressInt = 0 ∨
      progressInt % (100 / updateCount) ≠ 0 then
    false
  else
    true

/-- C4.  The callback built by `buildProgressCallback` emits an update for
`(bytesRead, contentLength)` iff the task's declared size is at least
50 MiB, the truncated percentage `⌊bytesRead / contentLength * 100⌋` is
nonzero and that percentage is an exact multiple of `100 / updateCount`;
in particular a task below 50 MiB never emits, whatever the byte counts. -/
theorem buildProgressCallback_emits_iff (taskFileSize updateCount bytesRead contentLength : Nat)
    (_hu : 0 < 100 / updateCount) (_hc : 0 < contentLength) :
    (buildProgressCallbackEmits taskFileSize updateCount bytesRead contentLength = true ↔
      (1024 * 1024 * 50 ≤ taskFileSize ∧ bytesRead * 100 / contentLength ≠ 0 ∧
        (100 / updateCount) ∣ (bytesRead * 100 / contentLength))) ∧
    (taskFileSize < 1024 * 1024 * 50 →
      buildProgressCallbackEmits taskFileSize updateCount bytesRead contentLength = false) := by
  constructor
  · simp only [buildProgressCallbackEmits]
    split_ifs with h
    · simp only [Bool.false_eq_true, false_iff]
      intro hD
      rcases h with h | h | h
      · omega
      · exact hD.2.1 h
      · exact h (Nat.dvd_iff_mod_eq_zero.mp hD.2.2)
    · push_neg at h
      simp only [eq_self_iff_true, true_iff]
      exact ⟨by omega, h.2.1, Nat.dvd_iff_mod_eq_zero.mpr h.2.2⟩
  · intro hsmall
    simp [buildProgressCallbackEmits, hsmall]

/-- Witness for C4: a 100 MiB task, `updateCount = 5`, 40 of 100 bytes read
(40%, a tick boundary with ticks every 20%). -/
theorem buildProgressCallback_emits_iff_witness :
    (buildProgressCallbackEmits (1024 * 1024 * 100) 5 40 100 = true ↔
      (1024 * 1024 * 50 ≤ 1024 * 1024 * 100 ∧ 40 * 100 / 100 ≠ 0 ∧
        (100 / 5) ∣ (40 * 100 / 100))) ∧
    (1024 * 1024 * 100 < 1024 * 1024 * 50 →
      buildProgressCallbackEmits (1024 * 1024 * 100) 5 40 100 = false) :=
  buildProgressCallback_emits_iff (1024 * 1024 * 100) 5 40 100 (by decide) (by decide)

/-! ## cleanCacheFile — src/core/utils.go lines 75-83

```go
func cleanCacheFile(destPath string) {
    if config.Cfg.Temp.CacheTTL > 0 {
        common.RmFileAfter(destPath, time.Duration(config.Cfg.Temp.CacheTTL)*time.Second)
    } else {
        if err := os.Remove(destPath); err != nil {
            logger.L.Errorf("Failed to purge file: %s", err)
        }
    }
}
```

`config.Cfg.Temp.CacheTTL` is an `int64` (src/unnamed/part_000 line 28),
the parameter `cacheTTL : Int`; the result of `os.Remove` is the input
`removeErr`. -/

/-- The observable effect of one `cleanCacheFile` call on the staged path. -/
structure ReclaimOutcome where
  /-- `some n`: deletion of the path was scheduled to happen `n` seconds
  later, and nothing was deleted before returning. -/
  scheduledAfterSeconds : Option Int
  /-- whether `os.Remove` was called synchronously before returning -/
  syncDeleteAttempted : Bool
  /-- the error that was only logged, if any -/
  loggedError : Option GoError
  /-- the error propagated to the caller (the Go function returns nothing,
  so this is `none` on every path) -/
  returnedError : Option GoError
deriving DecidableEq

/-- Modelled from the spec: `common.RmFileAfter` (package `common`, not
among the staged files) is, per the spec, "schedule deletion after that
many seconds elapse (non-blocking; the caller does not wait)".  It is
modelled as recording the scheduled delay, deleting nothing now and
returning no error. -/
def rmFileAfter (seconds : Int) : ReclaimOutcome :=
  { scheduledAfterSeconds := some seconds, syncDeleteAttempted := false,
    loggedError := none, returnedError := none }

def cleanCacheFile (cacheTTL : Int) (removeErr : Option GoError) : ReclaimOutcome :=
  if 0 < cacheTTL then
    rmFileAfter cacheTTL
  else
    { scheduledAfterSeconds := none, syncDeleteAttempted := true,
      loggedError := removeErr, returnedError := none }

/-- C7.  With a positive cache TTL, `cleanCacheFile` schedules deletion
after TTL seconds and deletes nothing synchronously; with TTL ≤ 0 it
deletes synchronously, and a failure of that deletion is logged and never
propagated: the function returns normally (no error) in every case. -/
theorem cleanCacheFile_spec (ttl : Int) (removeErr : Option GoError) :
    (cleanCacheFile ttl removeErr).returnedError = none ∧
    (cleanCacheFile ttl removeErr).scheduledAfterSeconds =
      (if 0 < ttl then some ttl else none) ∧
    (cleanCacheFile ttl removeErr).syncDeleteAttempted = (if 0 < ttl then false else true) ∧
    (cleanCacheFile ttl removeErr).loggedError = (if 0 < ttl then none else removeErr) := by
  unfold cleanCacheFile rmFileAfter
  split_ifs <;> simp

/-! ## processPhoto — src/core/utils.go lines 36-60

```go
func processPhoto(task *types.Task, taskStorage storage.Storage, cachePath string) error {
    res, err := bot.Client.API().UploadGetFile(task.Ctx, &tg.UploadGetFileRequest{...})
    if err != nil {
        return fmt.Errorf("failed to get file: %w", err)
    }
    result, ok := res.(*tg.UploadFile)
    if !ok {
        return fmt.Errorf("unexpected type %T", res)
    }
    if err := os.WriteFile(cachePath, result.Bytes, os.ModePerm); err != nil {
        return fmt.Errorf("failed to write file: %w", err)
    }
    defer cleanCacheFile(cachePath)
    logger.L.Infof("Downloaded file: %s", cachePath)
    return saveFileWithRetry(task, taskStorage, cachePath)
}
```

The Telegram fetch and the local write are inputs.  The crucial point for
C5 is Go's `defer` semantics: the deferred `cleanCacheFile` is registered
only *after* `os.WriteFile` has returned `nil`, so it runs on the save
paths but on none of the three earlier error returns. -/

/-- What the remote fetch produced: an API error, a response of an
unexpected dynamic type, or an `*tg.UploadFile` with some bytes. -/
inductive FetchResult where
  | apiError (e : GoError)
  | unexpectedType
  | uploadFile (byteCount : Nat)
deriving DecidableEq

/-- `processPhoto`, returning its result together with whether
`cleanCacheFile` ran on the staged path before returning. -/
def processPhoto (fetch : FetchResult) (writeErr : Option GoError)
    (retry : Nat) (save : Nat → Option GoError) : Except GoError Unit × Bool :=
  match fetch with
  | .apiError e => (.error (.wrapped "failed to get file" e), false)
  | .unexpectedType => (.error (.base "unexpected type"), false)
  | .uploadFile _ =>
    match writeErr with
    | some e => (.error (.wrapped "failed to write file" e), false)
    | none => (saveFileWithRetry retry save, true)

/-- Whether a staging file may exist on disk when `processPhoto` returns:
`os.WriteFile` opens the path with `O_CREATE|O_TRUNC` before writing, so
once the fetch has produced bytes and the write was attempted the file may
exist — also when `os.WriteFile` returned an error (e.g. a full disk after
creating the file). -/
def stagingFileMayExist (fetch : FetchResult) : Bool :=
  match fetch with
  | .uploadFile _ => true
  | _ => false

/-- C5 fails on the code: when `os.WriteFile` errors after creating the
staging file, `processPhoto` returns the wrapped write error *without*
invoking `cleanCacheFile` — the `defer` is registered only after a
successful write, so the write-error exit path leaks the staged file.
(On the success path the cleanup does run.) -/
theorem processPhoto_write_error_skips_cleanup :
    stagingFileMayExist (.uploadFile 4096) = true ∧
    (processPhoto (.uploadFile 4096) (some (.base "disk full")) 3 (fun _ => none)).2
      = false ∧
    (processPhoto (.uploadFile 4096) (some (.base "disk full")) 3 (fun _ => none)).1
      = .error (.wrapped "failed to write file" (.base "disk full")) ∧
    (processPhoto (.uploadFile 4096) none 3 (fun _ => none)).2 = true :=
  ⟨rfl, rfl, rfl, rfl⟩

/-! ## fixTaskFileExt — src/core/utils.go lines 156-166

```go
func fixTaskFileExt(task *types.Task, localFilePath string) {
    if path.Ext(task.FileName()) == "" {
        mimeType, err := mimetype.DetectFile(localFilePath)
        if err != nil {
            logger.L.Errorf("Failed to detect mime type: %s", err)
        } else {
            task.File.FileName = fmt.Sprintf("%s%s", task.FileName(), mimeType.Extension())
            task.StoragePath = fmt.Sprintf("%s%s", task.StoragePath, mimeType.Extension())
        }
    }
}
```

`types.Task` is not among the staged files; the two fields the function
touches are modelled as the record `TaskNaming`, with the accessor
`task.FileName()` read as the stored display name.  `mimetype.DetectFile`
is an external call: its outcome is the input `detect` (`none` for a
detection error, `some ext` for a detected type whose `Extension()` is
`ext`).  The Go function returns nothing, so it can return no error. -/

/-- Go's `path.Ext`, scanning backwards: the suffix starting at the final
dot of the last slash-separated element, `""` if there is no dot there.
First argument: the characters not yet scanned, in reverse order; second:
the characters already scanned, in order. -/
def pathExtAux : List Char → List Char → String
  | [], _ => ""
  | c :: rest, acc =>
    if c = '/' then ""
    else if c = '.' then String.mk (c :: acc)
    else pathExtAux rest (c :: acc)

def pathExt (s : String) : String :=
  pathExtAux s.data.reverse []

/-- The two naming fields of a task that `fixTaskFileExt` may modify. -/
structure TaskNaming where
  fileName : String
  storagePath : String
deriving DecidableEq

def fixTaskFileExt (t : TaskNaming) (detect : Option String) : TaskNaming :=
  if pathExt t.fileName = "" then
    match detect with
    | none => t
    | some ext =>
      { fileName := t.fileName ++ ext, storagePath := t.storagePath ++ ext }
  else
    t

/-- C8.  `fixTaskFileExt` changes the task only when the display name has
no extension and MIME detection succeeded, and then appends the detected
extension to both the file name and the storage path; when the name already
has an extension, or detection failed, both fields are left unchanged.
(The Go function has no error result at all, so no case returns one.) -/
theorem fixTaskFileExt_frame (t : TaskNaming) (detect : Option String) :
    (pathExt t.fileName ≠ "" → fixTaskFileExt t detect = t) ∧
    (fixTaskFileExt t none = t) ∧
    (∀ ext, pathExt t.fileName = "" → detect = some ext →
      fixTaskFileExt t detect =
        { fileName := t.fileName ++ ext, storagePath := t.storagePath ++ ext }) := by
  refine ⟨?_, ?_, ?_⟩
  · intro h
    unfold fixTaskFileExt
    rw [if_neg h]
  · unfold fixTaskFileExt
    split_ifs <;> rfl
  · intro ext hnoext hdet
    unfold fixTaskFileExt
    rw [if_pos hnoext, hdet]

/-! ## config.Init — src/unnamed/part_000 lines 58-141

```go
func Init() error {
    ... viper setup and defaults ...
    if err := viper.SafeWriteConfigAs("config.toml"); err != nil {
        if _, ok := err.(viper.ConfigFileAlreadyExistsError); !ok {
            return fmt.Errorf("error saving default config: %w", err)
        }
    }
    if err := viper.ReadInConfig(); err != nil { fmt.Println(...); os.Exit(1) }
    Cfg = &Config{}
    if err := viper.Unmarshal(Cfg); err != nil { fmt.Println(...); os.Exit(1) }
    ... deprecated-admins transform (touches only Cfg.Users) ...
    storagesConfig, err := LoadStorageConfigs(viper.GetViper())
    if err != nil { return fmt.Errorf("error loading storage configs: %w", err) }
    Cfg.Storages = storagesConfig
    ... deprecated-storage transform ...
    storageNames := make(map[string]struct{})
    for _, storage := range Cfg.Storages {
        if _, ok := storageNames[storage.GetName()]; ok {
            return fmt.Errorf("重复的存储名: %s", storage.GetName())
        }
        storageNames[storage.GetName()] = struct{}{}
    }
    ... log loaded storages ...
    if Cfg.Workers < 1 || Cfg.Retry < 1 {
        return fmt.Errorf("workers 和 retry 必须大于 0, ...")
    }
    return nil
}
```

The viper/file-system steps are inputs: whether `SafeWriteConfigAs` failed
with a non-already-exists error, whether reading or unmarshalling failed
(both call `os.Exit(1)`, so `Init` neither returns nor succeeds), the
unmarshalled `workers`/`retry` values (Go `int`, so `Int`), the result of
`LoadStorageConfigs` and the storage names it yielded.  The deprecated
admins/storage transforms touch only fields irrelevant here and cannot
fail, so they are dropped. -/

/-- The configuration fields C9 is about (`Config.Workers`, `Config.Retry`,
both Go `int`). -/
structure ConfigModel where
  workers : Int
  retry : Int
deriving DecidableEq

/-- Outcomes of the external steps `config.Init` performs. -/
structure InitEnv where
  /-- `viper.SafeWriteConfigAs` failed with an error that is not
  `ConfigFileAlreadyExistsError` -/
  safeWriteErr : Option GoError
  /-- `viper.ReadInConfig` failed (the process exits) -/
  readFails : Bool
  /-- `viper.Unmarshal` failed (the process exits) -/
  unmarshalFails : Bool
  /-- the unmarshalled workers/retry values -/
  cfg : ConfigModel
  /-- `LoadStorageConfigs` failed -/
  loadStoragesErr : Option GoError
  /-- the names of the loaded storages, in order -/
  storageNames : List String
deriving DecidableEq

/-- How one `config.Init` call ends. -/
inductive InitOutcome where
  /-- `os.Exit(1)` was called: the process is gone, `Init` never returns -/
  | exited
  | failed (e : GoError)
  | ok (cfg : ConfigModel)
deriving DecidableEq

/-- The duplicate-name scan over `Cfg.Storages`: a name already in the set
is a duplicate. -/
def hasDuplicate : List String → Bool
  | [] => false
  | n :: rest => rest.contains n || hasDuplicate rest

def configInit (env : InitEnv) : InitOutcome :=
  match env.safeWriteErr with
  | some e => .failed (.wrapped "error saving default config" e)
  | none =>
    if env.readFails then .exited
    else if env.unmarshalFails then .exited
    else
      match env.loadStoragesErr with
      | some e => .failed (.wrapped "error loading storage configs" e)
      | none =>
        if hasDuplicate env.storageNames then .failed (.base "duplicate storage name")
        else if env.cfg.workers < 1 ∨ env.cfg.retry < 1 then
          .failed (.base "workers and retry must be greater than 0")
        else .ok env.cfg

/-- C9.  `config.Init` rejects a configuration whose worker count or retry
limit is below 1: it never succeeds on one, and whenever it gets past the
read/unmarshal steps it returns an error for it.  Hence in a successfully
initialized process `Retry ≥ 1`, and `saveFileWithRetry` has called the
storage backend at least twice whenever it gives up with an error. -/
theorem configInit_validates_retry (env : InitEnv) (save : Nat → Option GoError) :
    (∀ cfg, configInit env = .ok cfg →
      1 ≤ cfg.workers ∧ 1 ≤ cfg.retry ∧
      ∀ e, saveFileWithRetry cfg.retry.toNat save = .error e →
        2 ≤ saveFileWithRetryCalls cfg.retry.toNat save) ∧
    ((env.cfg.workers < 1 ∨ env.cfg.retry < 1) →
      (∀ cfg, configInit env ≠ .ok cfg) ∧
      (env.safeWriteErr = none → env.readFails = false → env.unmarshalFails = false →
        ∃ e, configInit env = .failed e)) := by
  have hok : ∀ cfg, configInit env = .ok cfg →
      cfg = env.cfg ∧ ¬(env.cfg.workers < 1 ∨ env.cfg.retry < 1) := by
    intro cfg h
    unfold configInit at h
    cases hw : env.safeWriteErr with
    | some e => rw [hw] at h; exact absurd h (by simp)
    | none =>
      rw [hw] at h
      by_cases hr : env.readFails
      · rw [if_pos hr] at h; exact absurd h (by simp)
      · rw [if_neg hr] at h
        by_cases hm : env.unmarshalFails
        · rw [if_pos hm] at h; exact absurd h (by simp)
        · rw [if_neg hm] at h
          cases hl : env.loadStoragesErr with
          | some e => rw [hl] at h; exact absurd h (by simp)
          | none =>
            rw [hl] at h
            by_cases hd : hasDuplicate env.storageNames
            · rw [if_pos hd] at h; exact absurd h (by simp)
            · rw [if_neg hd] at h
              by_cases hv : env.cfg.workers < 1 ∨ env.cfg.retry < 1
              · rw [if_pos hv] at h; exact absurd h (by simp)
              · rw [if_neg hv] at h
                simp only [InitOutcome.ok.injEq] at h
                exact ⟨h.symm, hv⟩
  constructor
  · intro cfg h
    obtain ⟨hcfg, hv⟩ := hok cfg h
    push_neg at hv
    subst hcfg
    refine ⟨by omega, by omega, ?_⟩
    intro e herr
    have hcalls := saveFileWithRetryAux_error_calls save env.cfg.retry.toNat 0 e herr
    have : 1 ≤ env.cfg.retry.toNat := by omega
    unfold saveFileWithRetryCalls
    omega
  · intro hv
    constructor
    · intro cfg h
      exact absurd hv (hok cfg h).2
    · intro hw hr hm
      unfold configInit
      rw [hw, hr, hm]
      simp only [Bool.false_eq_true, if_false]
      cases hl : env.loadStoragesErr with
      | some e => exact ⟨_, rfl⟩
      | none =>
        by_cases hd : hasDuplicate env.storageNames
        · rw [if_pos hd]; exact ⟨_, rfl⟩
        · rw [if_neg hd, if_pos hv]; exact ⟨_, rfl⟩

end SaveAnyBot
